import Mathlib

/-
  Verification of the kinto_integrity core of CCADB-Tools.

  Shallow embedding of:
    - src/kinto_integrity/src/firefox/cert_storage/mod.rs
      (split_der_key, decode_revocation, CertStorage::try_from)
    - src/kinto_integrity/src/model/mod.rs
      (Intermediary, the three From impls building Return, and the
       per-source set builders)

  Bytes are modelled as Nat (Rust u8 values are < 256; theorems that depend
  on that carry it as a hypothesis or hold for all Nat anyway).  Rust
  Result is Except String, matching the string errors used by the source.
  Rust HashSet is Finset.  A Rust panic (unwrap on Err) is modelled as
  Option.none.
-/

namespace KintoIntegrity

/-- DER splitter, from src/kinto_integrity/src/firefox/cert_storage/mod.rs
lines 123-164 (fn split_der_key).  The source checks key.len() < 2 and then
reads key[1]; the two-cons pattern encodes exactly that.  In the 0x82 branch
the source computes (key[2] as usize) << 8 | key[3]; since key[3] is a u8
(< 256) this equals key[2] * 256 + key[3], which is how it is written here. -/
def split_der_key : List Nat → Except String (List Nat × List Nat)
  | t :: l :: rest =>
    let key := t :: l :: rest
    if l < 0x80 then
      if key.length < l + 2 then Except.error ("key too short")
      else Except.ok (key.splitAt (l + 2))
    else if l = 0x80 then Except.error ("unsupported ASN.1")
    else if l = 0x81 then
      if key.length < 3 then Except.error ("key too short to be DER")
      else
        let len := rest.getD 0 0
        if len < 0x80 then Except.error ("bad DER")
        else if key.length < len + 3 then Except.error ("key too short")
        else Except.ok (key.splitAt (len + 3))
    else if l = 0x82 then
      if key.length < 4 then Except.error ("key too short to be DER")
      else
        let len := rest.getD 0 0 * 256 + rest.getD 1 0
        if len < 256 then Except.error ("bad DER")
        else if key.length < len + 4 then Except.error ("key too short")
        else Except.ok (key.splitAt (len + 4))
    else Except.error ("key too long")
  | _ => Except.error ("key too short to be DER")

/-- IssuerSerial record, mod.rs lines 21-25. -/
structure IssuerSerial where
  issuer_name : String
  serial : String
  deriving DecidableEq

/-- The rkv Value enum as far as decode_revocation inspects it: an I64
variant, or any other variant (all of which decode_revocation skips). -/
inductive RkvValue where
  | i64 : Int → RkvValue
  | other : RkvValue
  deriving DecidableEq

/-- Character of the standard base64 alphabet (A-Z a-z 0-9 + /), as used by
the base64 crate's base64::encode. -/
def b64char (n : Nat) : Char :=
  if n < 26 then Char.ofNat (65 + n)
  else if n < 52 then Char.ofNat (97 + (n - 26))
  else if n < 62 then Char.ofNat (48 + (n - 52))
  else if n = 62 then Char.ofNat 43
  else Char.ofNat 47

/-- base64::encode with standard alphabet and = padding, processing three
input bytes into four output characters. -/
def base64encode : List Nat → String
  | [] => ""
  | [a] =>
    String.mk [b64char (a / 4), b64char (a % 4 * 16), Char.ofNat 61, Char.ofNat 61]
  | [a, b] =>
    String.mk [b64char (a / 4), b64char (a % 4 * 16 + b / 16), b64char (b % 16 * 4), Char.ofNat 61]
  | a :: b :: c :: rest =>
    String.mk [b64char (a / 4), b64char (a % 4 * 16 + b / 16),
               b64char (b % 16 * 4 + c / 64), b64char (c % 64)] ++ base64encode rest

/-- decode_revocation, mod.rs lines 107-121.  The source returns None for
I64(0), for an absent value and for any non-I64 value; only I64(1) proceeds
to split the key.  All of those None arms collapse to the else/other
branches here. -/
def decode_revocation (key : List Nat) (value : Option RkvValue) :
    Option (Except String IssuerSerial) :=
  match value with
  | some (RkvValue.i64 i) =>
    if i = 1 then
      some (match split_der_key key with
        | Except.ok (part1, part2) =>
          Except.ok ⟨base64encode part1, base64encode part2⟩
        | Except.error e => Except.error e)
    else none
  | none => none
  | some RkvValue.other => none

/-- Key dispatch of CertStorage::try_from, mod.rs lines 45-49: keys starting
with the bytes of "is" (105, 115) and keys starting with the bytes of "spk"
(115, 112, 107) both have their remainder passed to decode_revocation; all
other keys yield None. -/
def routeKey (key : List Nat) (value : Option RkvValue) :
    Option (Except String IssuerSerial) :=
  match key with
  | 105 :: 115 :: entry => decode_revocation entry value
  | 115 :: 112 :: 107 :: entry => decode_revocation entry value
  | _ => none

/-- Iteration body of CertStorage::try_from, mod.rs lines 43-61: walk the
store's (key, value) pairs in order, inserting each Some(Ok(..)) into the
accumulated set, failing on the first Some(Err(..)), skipping None.  The
source wraps the error with chain_err context; we propagate the underlying
error string itself. -/
def loadCertStorageGo :
    List (List Nat × Option RkvValue) → Finset IssuerSerial →
    Except String (Finset IssuerSerial)
  | [], acc => Except.ok acc
  | (k, v) :: rest, acc =>
    match routeKey k v with
    | some (Except.ok issuerSerial) => loadCertStorageGo rest (insert issuerSerial acc)
    | some (Except.error e) => Except.error e
    | none => loadCertStorageGo rest acc

/-- CertStorage::try_from, mod.rs lines 30-63, with the rkv store abstracted
to the list of (key, value) entries its iterator yields; starts from the
empty set. -/
def loadCertStorage (items : List (List Nat × Option RkvValue)) :
    Except String (Finset IssuerSerial) :=
  loadCertStorageGo items ∅

/-- Issuer record produced by the distinguished-name parser: common name and
organization, spec section 3. -/
structure Issuer where
  common_name : String
  organization : String
  deriving DecidableEq, Inhabited

/-- Modelled from the spec: asn1::parse_issuers (module src/kinto_integrity/
src/model/asn1.rs is not under src/).  Spec section 4.4 fixes the batch
structure: each name is parsed by a single-name parser (abstracted here as
the parameter p), output is positionally aligned with the input, and a parse
failure on any single name fails the entire batch with no partial output. -/
def parse_issuers (p : String → Except String Issuer) :
    List String → Except String (List Issuer)
  | [] => Except.ok []
  | n :: rest =>
    match p n with
    | Except.error e => Except.error e
    | Except.ok i =>
      match parse_issuers p rest with
      | Except.error e => Except.error e
      | Except.ok ansList => Except.ok (i :: ansList)

/-- Intermediary, model/mod.rs lines 133-138: the canonical reconciliation
record; equality is over all three fields. -/
structure Intermediary where
  common_name : String
  organization : String
  serial : String
  deriving DecidableEq

/-- Modelled from the spec: one record of remote feed A (crate::kinto::Kinto
is not under src/).  Spec section 6 gives {issuer_name: base64-text,
serial_number: text}; the id field is the Kinto-specific identifier that the
builder's doc comment (model/mod.rs lines 174-180) says differs between
otherwise-identical rows. -/
structure KintoEntry where
  id : String
  issuer_name : String
  serial_number : String
  deriving DecidableEq, Inhabited

/-- Modelled from the spec: remote feed A document, a list of records. -/
structure Kinto where
  data : List KintoEntry

/-- Set-building loop of From<Kinto> for HashSet<Intermediary>, model/mod.rs
lines 190-200: for i in 0..issuers.len(), insert the Intermediary built from
issuers[i] (get_unchecked) and kinto.data[i].serial_number (get(i).unwrap).
The unchecked/unwrapped indexings are modelled with getD; they are in bounds
because parse_issuers preserves length. -/
def kintoBuild (issuers : List Issuer) (data : List KintoEntry) : Finset Intermediary :=
  (List.range issuers.length).foldl
    (fun set i =>
      insert
        ⟨(issuers.getD i default).common_name,
         (issuers.getD i default).organization,
         (data.getD i default).serial_number⟩ set)
    ∅

/-- From<Kinto> for HashSet<Intermediary>, model/mod.rs lines 173-202:
parse all issuer names, then build the set positionally.  The source calls
.unwrap() on the parse result and panics on Err; the panic is modelled as
none. -/
def kintoToIntermediaries (p : String → Except String Issuer) (kinto : Kinto) :
    Option (Finset Intermediary) :=
  match parse_issuers p (kinto.data.map (fun e => e.issuer_name)) with
  | Except.error _ => none
  | Except.ok issuers => some (kintoBuild issuers kinto.data)

/-- Modelled from the spec: one row of tabular feed C (crate::ccadb::
CCADBEntry is not under src/).  Spec section 6: common name and organization
are plain strings, the serial is hex text. -/
structure CCADBEntry where
  certificate_issuer_common_name : String
  certificate_issuer_organization : String
  certificate_serial_number : String
  deriving DecidableEq

/-- Modelled from the spec: tabular feed C report, a list of rows (the
source reads ccadb.report). -/
structure CCADBReport where
  report : List CCADBEntry

/-- Value of one hex digit byte (0-9, a-f, A-F), as accepted by
hex::decode. -/
def hexVal (c : Nat) : Option Nat :=
  if 48 ≤ c ∧ c ≤ 57 then some (c - 48)
  else if 97 ≤ c ∧ c ≤ 102 then some (c - 87)
  else if 65 ≤ c ∧ c ≤ 70 then some (c - 55)
  else none

/-- hex::decode on a byte string: two hex digits per output byte; fails on
an odd-length input or a non-hex digit. -/
def hexDecode : List Nat → Option (List Nat)
  | [] => some []
  | [_] => none
  | h :: l :: rest =>
    match hexVal h, hexVal l with
    | some hi, some lo =>
      match hexDecode rest with
      | some tail => some ((hi * 16 + lo) :: tail)
      | none => none
    | _, _ => none

/-- Bytes of a string, as produced by str::as_bytes (the strings involved
are ASCII hex text, for which UTF-8 bytes coincide with the code points). -/
def strBytes (s : String) : List Nat :=
  s.data.map Char.toNat

/-- Row mapping of From<CCADBReport> for HashSet<Intermediary>, model/mod.rs
lines 229-239: each row keeps its common name and organization and
re-encodes the serial as base64(hex::decode(serial)); the source calls
.unwrap() on the hex decode and panics on Err, modelled as none
short-circuiting the whole conversion. -/
def ccadbRows : List CCADBEntry → Option (List Intermediary)
  | [] => some []
  | e :: rest =>
    match hexDecode (strBytes e.certificate_serial_number) with
    | none => none
    | some bs =>
      match ccadbRows rest with
      | none => none
      | some tail =>
        some (⟨e.certificate_issuer_common_name,
               e.certificate_issuer_organization,
               base64encode bs⟩ :: tail)

/-- From<CCADBReport> for HashSet<Intermediary>, model/mod.rs lines 227-241:
map every row and collect into a set. -/
def ccadbToIntermediaries (ccadb : CCADBReport) : Option (Finset Intermediary) :=
  (ccadbRows ccadb.report).map List.toFinset

/-- The Return report record, model/mod.rs lines 24-43: eight optional
difference fields; an absent comparison is None and is omitted from the
serialized output.  The Vec<Intermediary> lists collected from set
differences are modelled as the Finset differences themselves (the spec
fixes no order). -/
structure Return where
  in_kinto_not_in_cert_storage : Option (Finset Intermediary)
  in_cert_storage_not_in_kinto : Option (Finset Intermediary)
  in_cert_storage_not_in_revocations : Option (Finset Intermediary)
  in_revocations_not_in_cert_storage : Option (Finset Intermediary)
  in_revocations_not_in_kinto : Option (Finset Intermediary)
  in_kinto_not_in_revocations : Option (Finset Intermediary)
  in_ccadb_not_in_cert_storage : Option (Finset Intermediary)
  in_cert_storage_not_in_ccadb : Option (Finset Intermediary)

/-- From<WithRevocations> for Return, model/mod.rs lines 49-91, from the
point after the three sources have been converted to sets (lines 51-53):
all six pairwise directional differences are populated, the two CCADB
fields are None. -/
def return_from_with_revocations
    (cert_storage kinto revocations : Finset Intermediary) : Return :=
  { in_kinto_not_in_cert_storage := some (kinto \ cert_storage)
    in_cert_storage_not_in_kinto := some (cert_storage \ kinto)
    in_cert_storage_not_in_revocations := some (cert_storage \ revocations)
    in_revocations_not_in_cert_storage := some (revocations \ cert_storage)
    in_revocations_not_in_kinto := some (revocations \ kinto)
    in_kinto_not_in_revocations := some (kinto \ revocations)
    in_ccadb_not_in_cert_storage := none
    in_cert_storage_not_in_ccadb := none }

/-- From<WithoutRevocations> for Return, model/mod.rs lines 93-114: only the
two cert_storage/kinto differences are populated. -/
def return_from_without_revocations
    (cert_storage kinto : Finset Intermediary) : Return :=
  { in_kinto_not_in_cert_storage := some (kinto \ cert_storage)
    in_cert_storage_not_in_kinto := some (cert_storage \ kinto)
    in_cert_storage_not_in_revocations := none
    in_revocations_not_in_cert_storage := none
    in_revocations_not_in_kinto := none
    in_kinto_not_in_revocations := none
    in_ccadb_not_in_cert_storage := none
    in_cert_storage_not_in_ccadb := none }

/-- From<CCADBDiffCertStorage> for Return, model/mod.rs lines 116-131: only
the two cert_storage/ccadb differences are populated. -/
def return_from_ccadb_diff
    (cert_storage ccadb_report : Finset Intermediary) : Return :=
  { in_kinto_not_in_cert_storage := none
    in_cert_storage_not_in_kinto := none
    in_cert_storage_not_in_revocations := none
    in_revocations_not_in_cert_storage := none
    in_revocations_not_in_kinto := none
    in_kinto_not_in_revocations := none
    in_ccadb_not_in_cert_storage := some (ccadb_report \ cert_storage)
    in_cert_storage_not_in_ccadb := some (cert_storage \ ccadb_report) }

/-- Big-endian base-256 digits of n, fuel-driven so that it reduces
definitionally; the fuel n + 1 always suffices since n shrinks by a factor
of 256 each step. -/
def lenBytesBEAux : Nat → Nat → List Nat
  | 0, _ => []
  | fuel + 1, n =>
    if n < 256 then [n]
    else lenBytesBEAux fuel (n / 256) ++ [n % 256]

/-- Big-endian base-256 digits of n (the long-form DER length octets). -/
def lenBytesBE (n : Nat) : List Nat :=
  lenBytesBEAux (n + 1) n

/-- Canonical DER length octets for content length n: short form below 0x80,
otherwise 0x80 + count of length octets followed by the big-endian length. -/
def derLenBytes (n : Nat) : List Nat :=
  if n < 0x80 then [n]
  else (0x80 + (lenBytesBE n).length) :: lenBytesBE n

/-- A byte list that is one complete canonical DER TLV encoding: a tag byte,
the canonical length octets for the content length, then the content. -/
def IsTLV (e : List Nat) : Prop :=
  ∃ tag content, tag < 256 ∧ (∀ b ∈ content, b < 256) ∧
    e = tag :: derLenBytes content.length ++ content

/-! Helper lemmas about the splitter and the loader. -/

theorem splitAt_append_eq {α : Type} (l1 l2 : List α) {n : Nat} (h : l1.length = n) :
    (l1 ++ l2).splitAt n = (l1, l2) := by
  rw [List.splitAt_eq, List.take_left' h, List.drop_left' h]

theorem split_der_key_short (t l : Nat) (c r : List Nat)
    (hc : c.length = l) (hl : l < 0x80) :
    split_der_key (t :: l :: (c ++ r)) = Except.ok (t :: l :: c, r) := by
  have hns : ¬ (t :: l :: (c ++ r)).length < l + 2 := by
    simp only [List.length_cons, List.length_append]; omega
  have hsp : (t :: l :: (c ++ r)).splitAt (l + 2) = (t :: l :: c, r) := by
    rw [show t :: l :: (c ++ r) = (t :: l :: c) ++ r from by simp]
    exact splitAt_append_eq _ _ (by simp only [List.length_cons, hc])
  simp only [split_der_key]
  rw [if_pos hl, if_neg hns, hsp]

theorem split_der_key_81 (t len : Nat) (c r : List Nat)
    (hc : c.length = len) (hlen : 0x80 ≤ len) :
    split_der_key (t :: 0x81 :: len :: (c ++ r)) = Except.ok (t :: 0x81 :: len :: c, r) := by
  have h1 : ¬ (0x81 : Nat) < 0x80 := by decide
  have h2 : (0x81 : Nat) ≠ 0x80 := by decide
  have h4 : ¬ (t :: 0x81 :: len :: (c ++ r)).length < 3 := by
    simp only [List.length_cons]; omega
  have h5 : ¬ len < 0x80 := by omega
  have h6 : ¬ (t :: 0x81 :: len :: (c ++ r)).length < len + 3 := by
    simp only [List.length_cons, List.length_append]; omega
  have hsp : (t :: 0x81 :: len :: (c ++ r)).splitAt (len + 3) = (t :: 0x81 :: len :: c, r) := by
    rw [show t :: 0x81 :: len :: (c ++ r) = (t :: 0x81 :: len :: c) ++ r from by simp]
    exact splitAt_append_eq _ _ (by simp only [List.length_cons, hc])
  simp only [split_der_key, List.getD_cons_zero]
  rw [if_neg h1, if_neg h2, if_pos trivial, if_neg h4, if_neg h5, if_neg h6, hsp]

theorem split_der_key_82 (t b2 b3 : Nat) (c r : List Nat)
    (hc : c.length = b2 * 256 + b3) (hlen : 256 ≤ b2 * 256 + b3) :
    split_der_key (t :: 0x82 :: b2 :: b3 :: (c ++ r)) =
      Except.ok (t :: 0x82 :: b2 :: b3 :: c, r) := by
  have h1 : ¬ (0x82 : Nat) < 0x80 := by decide
  have h2 : (0x82 : Nat) ≠ 0x80 := by decide
  have h3 : (0x82 : Nat) ≠ 0x81 := by decide
  have h4 : ¬ (t :: 0x82 :: b2 :: b3 :: (c ++ r)).length < 4 := by
    simp only [List.length_cons]; omega
  have h5 : ¬ b2 * 256 + b3 < 256 := by omega
  have h6 : ¬ (t :: 0x82 :: b2 :: b3 :: (c ++ r)).length < b2 * 256 + b3 + 4 := by
    simp only [List.length_cons, List.length_append]; omega
  have hsp : (t :: 0x82 :: b2 :: b3 :: (c ++ r)).splitAt (b2 * 256 + b3 + 4) =
      (t :: 0x82 :: b2 :: b3 :: c, r) := by
    rw [show t :: 0x82 :: b2 :: b3 :: (c ++ r) = (t :: 0x82 :: b2 :: b3 :: c) ++ r from by simp]
    exact splitAt_append_eq _ _ (by simp only [List.length_cons, hc])
  simp only [split_der_key, List.getD_cons_zero, List.getD_cons_succ]
  rw [if_neg h1, if_neg h2, if_neg h3, if_pos trivial, if_neg h4, if_neg h5, if_neg h6, hsp]

theorem split_der_key_81_bad (t len2 : Nat) (rest : List Nat) (h : len2 < 0x80) :
    split_der_key (t :: 0x81 :: len2 :: rest) = Except.error ("bad DER") := by
  have h1 : ¬ (0x81 : Nat) < 0x80 := by decide
  have h2 : (0x81 : Nat) ≠ 0x80 := by decide
  have h4 : ¬ (t :: 0x81 :: len2 :: rest).length < 3 := by
    simp only [List.length_cons]; omega
  simp only [split_der_key, List.getD_cons_zero]
  rw [if_neg h1, if_neg h2, if_pos trivial, if_neg h4, if_pos h]

theorem split_der_key_82_bad (t b2 b3 : Nat) (rest : List Nat) (h : b2 * 256 + b3 < 256) :
    split_der_key (t :: 0x82 :: b2 :: b3 :: rest) = Except.error ("bad DER") := by
  have h1 : ¬ (0x82 : Nat) < 0x80 := by decide
  have h2 : (0x82 : Nat) ≠ 0x80 := by decide
  have h3 : (0x82 : Nat) ≠ 0x81 := by decide
  have h4 : ¬ (t :: 0x82 :: b2 :: b3 :: rest).length < 4 := by
    simp only [List.length_cons]; omega
  simp only [split_der_key, List.getD_cons_zero, List.getD_cons_succ]
  rw [if_neg h1, if_neg h2, if_neg h3, if_pos trivial, if_neg h4, if_pos h]

theorem split_der_key_toolong (t l : Nat) (rest : List Nat)
    (h1 : ¬ l < 0x80) (h2 : l ≠ 0x80) (h3 : l ≠ 0x81) (h4 : l ≠ 0x82) :
    split_der_key (t :: l :: rest) = Except.error ("key too long") := by
  simp only [split_der_key]
  rw [if_neg h1, if_neg h2, if_neg h3, if_neg h4]

theorem loadCertStorageGo_subset (items : List (List Nat × Option RkvValue)) :
    ∀ (acc s : Finset IssuerSerial),
      loadCertStorageGo items acc = Except.ok s → acc ⊆ s := by
  induction items with
  | nil =>
    intro acc s h
    simp only [loadCertStorageGo, Except.ok.injEq] at h
    exact h ▸ Finset.Subset.refl acc
  | cons kv rest ih =>
    intro acc s h
    obtain ⟨k, v⟩ := kv
    cases hr : routeKey k v with
    | none =>
      simp only [loadCertStorageGo, hr] at h
      exact ih acc s h
    | some res =>
      cases res with
      | ok issuerSerial =>
        simp only [loadCertStorageGo, hr] at h
        exact fun x hx => ih _ s h (Finset.mem_insert_of_mem hx)
      | error e =>
        simp only [loadCertStorageGo, hr] at h
        exact absurd h (by simp)

theorem loadCertStorageGo_error
    (k : List Nat) (v : Option RkvValue) (e : String)
    (post : List (List Nat × Option RkvValue)) :
    ∀ pre : List (List Nat × Option RkvValue),
      (∀ kv ∈ pre, ∀ er, routeKey kv.1 kv.2 ≠ some (Except.error er)) →
      routeKey k v = some (Except.error e) →
      ∀ acc, loadCertStorageGo (pre ++ (k, v) :: post) acc = Except.error e := by
  intro pre
  induction pre with
  | nil =>
    intro _ hk acc
    simp only [List.nil_append, loadCertStorageGo, hk]
  | cons kv0 rest ih =>
    intro hpre hk acc
    obtain ⟨k0, v0⟩ := kv0
    have hm := hpre (k0, v0) (List.mem_cons_self _ _)
    have htail : ∀ kv ∈ rest, ∀ er, routeKey kv.1 kv.2 ≠ some (Except.error er) :=
      fun kv hkv er => hpre kv (List.mem_cons_of_mem _ hkv) er
    cases hr : routeKey k0 v0 with
    | none =>
      simp only [List.cons_append, loadCertStorageGo, hr]
      exact ih htail hk acc
    | some res =>
      cases res with
      | ok issuerSerial =>
        simp only [List.cons_append, loadCertStorageGo, hr]
        exact ih htail hk _
      | error er => exact absurd hr (hm er)

/-- C9: whenever split_der_key succeeds with (part1, part2), the two parts
concatenate back to the input key byte-for-byte (the splitter never drops,
copies or alters bytes), and part1 is at least two bytes long. -/
theorem c9_split_preserves_bytes :
    ∀ (key p1 p2 : List Nat), split_der_key key = Except.ok (p1, p2) →
      p1 ++ p2 = key ∧ 2 ≤ p1.length := by
  intro key p1 p2 h
  rcases key with _ | ⟨t, _ | ⟨l, rest⟩⟩
  · exact absurd h (by simp [split_der_key])
  · exact absurd h (by simp [split_der_key])
  · simp only [split_der_key, List.splitAt_eq] at h
    split_ifs at h <;>
      (simp only [Except.ok.injEq, Prod.mk.injEq] at h
       obtain ⟨hp1, hp2⟩ := h
       subst hp1
       subst hp2
       constructor
       · simp [List.take_append_drop]
       · simp only [List.length_cons, List.length_take]
         omega)

/-- C9 witness at the concrete key [0x30,0x03,1,2,3,0x02,1,9]. -/
theorem c9_witness :
    ([0x30, 0x03, 1, 2, 3] : List Nat) ++ [0x02, 1, 9] = [0x30, 0x03, 1, 2, 3, 0x02, 1, 9]
  ∧ 2 ≤ ([0x30, 0x03, 1, 2, 3] : List Nat).length :=
  c9_split_preserves_bytes [0x30, 0x03, 1, 2, 3, 0x02, 1, 9]
    [0x30, 0x03, 1, 2, 3] [0x02, 1, 9] (by rfl)

/-- C5: with length-of-length byte 0x81, an encoded length byte below 0x80
fails with the bad-DER error while encoded length 0x80 with a sufficient
buffer succeeds; with length-of-length byte 0x82, a two-byte encoded length
below 256 fails with the bad-DER error while encoded length 256 with a
sufficient buffer succeeds. -/
theorem c5_long_form_lengths :
    (∀ (t len2 : Nat) (rest : List Nat), len2 < 0x80 →
      split_der_key (t :: 0x81 :: len2 :: rest) = Except.error ("bad DER"))
  ∧ (∀ (t : Nat) (rest : List Nat), 0x80 ≤ rest.length →
      ∃ pr, split_der_key (t :: 0x81 :: 0x80 :: rest) = Except.ok pr)
  ∧ (∀ (t b2 b3 : Nat) (rest : List Nat), b2 * 256 + b3 < 256 →
      split_der_key (t :: 0x82 :: b2 :: b3 :: rest) = Except.error ("bad DER"))
  ∧ (∀ (t b2 b3 : Nat) (rest : List Nat), b2 * 256 + b3 = 256 → 256 ≤ rest.length →
      ∃ pr, split_der_key (t :: 0x82 :: b2 :: b3 :: rest) = Except.ok pr) := by
  refine ⟨split_der_key_81_bad, ?_, split_der_key_82_bad, ?_⟩
  · intro t rest h
    refine ⟨(t :: 0x81 :: 0x80 :: rest.take 0x80, rest.drop 0x80), ?_⟩
    conv_lhs => rw [show rest = rest.take 0x80 ++ rest.drop 0x80 from
      (List.take_append_drop _ _).symm]
    exact split_der_key_81 t 0x80 _ _
      (by simp only [List.length_take]; omega) (by omega)
  · intro t b2 b3 rest h256 hlen
    refine ⟨(t :: 0x82 :: b2 :: b3 :: rest.take 256, rest.drop 256), ?_⟩
    conv_lhs => rw [show rest = rest.take 256 ++ rest.drop 256 from
      (List.take_append_drop _ _).symm]
    exact split_der_key_82 t b2 b3 _ _
      (by simp only [List.length_take]; omega) (by omega)

/-- C5 witness: concrete failing and succeeding keys for both long forms. -/
theorem c5_witness :
    split_der_key [0x30, 0x81, 0x05] = Except.error ("bad DER")
  ∧ (∃ pr, split_der_key (0x30 :: 0x81 :: 0x80 :: List.replicate 0x80 0) = Except.ok pr)
  ∧ split_der_key [0x30, 0x82, 0, 5] = Except.error ("bad DER")
  ∧ (∃ pr, split_der_key (0x30 :: 0x82 :: 1 :: 0 :: List.replicate 256 0) = Except.ok pr) :=
  ⟨c5_long_form_lengths.1 0x30 0x05 [] (by decide),
   c5_long_form_lengths.2.1 0x30 (List.replicate 0x80 0)
     (by rw [List.length_replicate]),
   c5_long_form_lengths.2.2.1 0x30 0 5 [] (by decide),
   c5_long_form_lengths.2.2.2 0x30 1 0 (List.replicate 256 0) (by decide)
     (by rw [List.length_replicate])⟩

/-- C4: a store entry whose value is not exactly I64(1) (that is, 0, absent,
a different integer, or a non-integer value) decodes to None — it never
contributes a record and never raises an error even when the key is
malformed; a value of exactly I64(1) with a key the splitter accepts decodes
to exactly one Ok record. -/
theorem c4_value_filter :
    ∀ (key : List Nat) (value : Option RkvValue),
      (value ≠ some (RkvValue.i64 1) → decode_revocation key value = none)
    ∧ (∀ p1 p2 : List Nat, value = some (RkvValue.i64 1) →
        split_der_key key = Except.ok (p1, p2) →
        decode_revocation key value =
          some (Except.ok ⟨base64encode p1, base64encode p2⟩)) := by
  intro key value
  constructor
  · intro hne
    cases value with
    | none => rfl
    | some x =>
      cases x with
      | other => rfl
      | i64 i =>
        have hi : ¬ i = 1 := fun h => hne (by rw [h])
        simp only [decode_revocation, if_neg hi]
  · intro p1 p2 hv hsplit
    subst hv
    simp only [decode_revocation, if_pos trivial, hsplit]

/-- C4 witness: value I64(0) is skipped, value I64(1) with a well-formed key
yields exactly one record. -/
theorem c4_witness :
    decode_revocation [0x30, 3, 1, 2, 3, 2, 1, 9] (some (RkvValue.i64 0)) = none
  ∧ decode_revocation [0x30, 3, 1, 2, 3, 2, 1, 9] (some (RkvValue.i64 1)) =
      some (Except.ok ⟨base64encode [0x30, 3, 1, 2, 3], base64encode [2, 1, 9]⟩) :=
  ⟨(c4_value_filter [0x30, 3, 1, 2, 3, 2, 1, 9] (some (RkvValue.i64 0))).1 (by decide),
   (c4_value_filter [0x30, 3, 1, 2, 3, 2, 1, 9] (some (RkvValue.i64 1))).2
     [0x30, 3, 1, 2, 3] [2, 1, 9] rfl (by rfl)⟩

/-- C3: the store load is all-or-nothing — if the first failing entry
decodes to Err(e) then the whole load returns Err(e) and no partial set;
likewise the name-parsing batch fails as a whole with the error of the
failing name, with no partial output. -/
theorem c3_all_or_nothing :
    (∀ (pre post : List (List Nat × Option RkvValue)) (k : List Nat)
        (v : Option RkvValue) (e : String),
      (∀ kv ∈ pre, ∀ er, routeKey kv.1 kv.2 ≠ some (Except.error er)) →
      routeKey k v = some (Except.error e) →
      loadCertStorage (pre ++ (k, v) :: post) = Except.error e)
  ∧ (∀ (p : String → Except String Issuer) (pre post : List String) (n e : String),
      (∀ m ∈ pre, ∀ er, p m ≠ Except.error er) →
      p n = Except.error e →
      parse_issuers p (pre ++ n :: post) = Except.error e) := by
  constructor
  · intro pre post k v e hpre hk
    exact loadCertStorageGo_error k v e post pre hpre hk ∅
  · intro p pre post n e
    induction pre with
    | nil =>
      intro _ hn
      simp only [List.nil_append, parse_issuers, hn]
    | cons m rest ih =>
      intro hpre hn
      have hm := hpre m (List.mem_cons_self _ _)
      cases hpm : p m with
      | error er => exact absurd hpm (hm er)
      | ok i =>
        have htail := ih (fun m' hm' er => hpre m' (List.mem_cons_of_mem _ hm') er) hn
        simp only [List.cons_append, parse_issuers, hpm, List.append_eq, htail]

/-- C3 witness: a store with one bad is-prefixed entry fails with that
entry's error; a batch with one failing name fails with that name's error. -/
theorem c3_witness :
    loadCertStorage [([105, 115, 0x30], some (RkvValue.i64 1))] =
      Except.error ("key too short to be DER")
  ∧ parse_issuers (fun _ => Except.error ("boom")) [("x")] = Except.error ("boom") :=
  ⟨c3_all_or_nothing.1 [] [] [105, 115, 0x30] (some (RkvValue.i64 1))
      ("key too short to be DER")
      (fun kv hkv => absurd hkv (List.not_mem_nil kv)) (by rfl),
   c3_all_or_nothing.2 (fun _ => Except.error ("boom")) [] [] ("x") ("boom")
      (fun m hm => absurd hm (List.not_mem_nil m)) rfl⟩

/-- C2 counterexample: a store holding a single spk-prefixed entry with
value I64(1) loads to a non-empty set — the loader does insert a record
derived from an spk-prefixed key, contradicting the claim that the loaded
set contains no such record. -/
theorem c2_counterexample :
    loadCertStorage [([115, 112, 107, 0x30, 3, 1, 2, 3, 2, 1, 9], some (RkvValue.i64 1))] =
      Except.ok
        (insert (⟨base64encode [0x30, 3, 1, 2, 3], base64encode [2, 1, 9]⟩ : IssuerSerial) ∅)
  ∧ (insert (⟨base64encode [0x30, 3, 1, 2, 3], base64encode [2, 1, 9]⟩ : IssuerSerial)
      (∅ : Finset IssuerSerial)) ≠ ∅ :=
  ⟨rfl, Finset.insert_ne_empty _ _⟩

/-- C2 amended: for entries with value exactly I64(1), the loader routes
both is-prefixed and spk-prefixed keys through decode_revocation on the key
remainder (both producing IssuerSerial records), skips every other prefix,
and a successfully decoded record from an spk-prefixed entry is a member of
the loaded set. -/
theorem c2_loader_key_dispatch :
    ∀ (entry : List Nat) (value : Option RkvValue)
      (rest : List (List Nat × Option RkvValue)) (s : Finset IssuerSerial)
      (rec : IssuerSerial),
      (routeKey (105 :: 115 :: entry) value = decode_revocation entry value)
    ∧ (routeKey (115 :: 112 :: 107 :: entry) value = decode_revocation entry value)
    ∧ (∀ key : List Nat, key.take 2 ≠ [105, 115] → key.take 3 ≠ [115, 112, 107] →
        routeKey key value = none)
    ∧ (decode_revocation entry value = some (Except.ok rec) →
        loadCertStorage ((115 :: 112 :: 107 :: entry, value) :: rest) = Except.ok s →
        rec ∈ s) := by
  intro entry value rest s rec
  refine ⟨rfl, rfl, ?_, ?_⟩
  · intro key h2 h3
    unfold routeKey
    split
    · simp at h2
    · simp at h3
    · rfl
  · intro hdec hload
    have h1 : loadCertStorageGo ((115 :: 112 :: 107 :: entry, value) :: rest) ∅ =
        Except.ok s := hload
    have h2 : loadCertStorageGo rest (insert rec ∅) = Except.ok s := by
      simpa only [loadCertStorageGo, routeKey, hdec] using h1
    exact loadCertStorageGo_subset rest (insert rec ∅) s h2 (Finset.mem_insert_self rec ∅)

/-- C2 witness: concrete spk entry decoded and found in the loaded set. -/
theorem c2_witness :
    (⟨base64encode [0x30, 3, 1, 2, 3], base64encode [2, 1, 9]⟩ : IssuerSerial) ∈
      insert (⟨base64encode [0x30, 3, 1, 2, 3], base64encode [2, 1, 9]⟩ : IssuerSerial)
        (∅ : Finset IssuerSerial) :=
  (c2_loader_key_dispatch [0x30, 3, 1, 2, 3, 2, 1, 9] (some (RkvValue.i64 1)) []
      (insert ⟨base64encode [0x30, 3, 1, 2, 3], base64encode [2, 1, 9]⟩ ∅)
      ⟨base64encode [0x30, 3, 1, 2, 3], base64encode [2, 1, 9]⟩).2.2.2 (by rfl) (by rfl)

/-- C1 counterexample: the concatenation of two valid canonical DER TLV
encodings on which split_der_key does not succeed — a first element with
content length 65536 has length-of-length byte 0x83, which split_der_key
rejects as the key-too-long error. -/
theorem c1_counterexample :
    IsTLV (0x30 :: derLenBytes (List.replicate 65536 0).length ++ List.replicate 65536 0)
  ∧ IsTLV [0x02, 1, 9]
  ∧ split_der_key
      ((0x30 :: derLenBytes (List.replicate 65536 0).length ++ List.replicate 65536 0) ++
        [0x02, 1, 9]) = Except.error ("key too long") := by
  refine ⟨⟨0x30, List.replicate 65536 0, by decide, ?_, rfl⟩,
          ⟨0x02, [9], by decide, by decide, by decide⟩, ?_⟩
  · intro b hb
    rw [List.eq_of_mem_replicate hb]
    decide
  · have hd : derLenBytes (List.replicate 65536 0).length = [0x83, 1, 0, 0] := by
      rw [List.length_replicate]
      rfl
    rw [hd]
    rw [show (0x30 :: ([0x83, 1, 0, 0] : List Nat) ++ List.replicate 65536 0) ++ [0x02, 1, 9] =
        0x30 :: 0x83 :: (1 :: 0 :: 0 :: (List.replicate 65536 0 ++ [0x02, 1, 9])) from by
      simp only [List.cons_append, List.append_assoc, List.nil_append]]
    exact split_der_key_toolong 0x30 0x83 _ (by decide) (by decide) (by decide) (by decide)

/-- C1 amended: for every concatenation of two valid canonical DER TLV
encodings whose first element has content length below 65536 (length-of-
length at most two bytes), split_der_key succeeds and returns exactly the
two encodings unmodified; in particular the concrete scenario key splits
into its two elements. -/
theorem c1_split_concat_two_tlvs :
    (∀ (tag : Nat) (c1 e2 : List Nat), tag < 256 → (∀ b ∈ c1, b < 256) →
      c1.length < 65536 → IsTLV e2 →
      split_der_key ((tag :: derLenBytes c1.length ++ c1) ++ e2) =
        Except.ok (tag :: derLenBytes c1.length ++ c1, e2))
  ∧ split_der_key [0x30, 0x03, 1, 2, 3, 0x02, 1, 9] =
      Except.ok ([0x30, 0x03, 1, 2, 3], [0x02, 1, 9]) := by
  constructor
  · intro tag c1 e2 _ _ hlt _
    by_cases h1 : c1.length < 0x80
    · rw [show derLenBytes c1.length = [c1.length] from by
        unfold derLenBytes; rw [if_pos h1]]
      rw [show (tag :: ([c1.length] : List Nat) ++ c1) ++ e2 =
          tag :: c1.length :: (c1 ++ e2) from by simp]
      rw [show (tag :: ([c1.length] : List Nat) ++ c1) = tag :: c1.length :: c1 from by simp]
      exact split_der_key_short tag c1.length c1 e2 rfl h1
    · by_cases h2 : c1.length < 256
      · have hlb : lenBytesBE c1.length = [c1.length] := by
          simp only [lenBytesBE, lenBytesBEAux]
          rw [if_pos h2]
        have hd : derLenBytes c1.length = [0x81, c1.length] := by
          unfold derLenBytes
          rw [if_neg h1, hlb]
          rfl
        rw [hd]
        rw [show (tag :: ([0x81, c1.length] : List Nat) ++ c1) ++ e2 =
            tag :: 0x81 :: c1.length :: (c1 ++ e2) from by simp]
        rw [show (tag :: ([0x81, c1.length] : List Nat) ++ c1) =
            tag :: 0x81 :: c1.length :: c1 from by simp]
        exact split_der_key_81 tag c1.length c1 e2 rfl (by omega)
      · have hq : c1.length / 256 < 256 := by omega
        have hlb : lenBytesBE c1.length = [c1.length / 256, c1.length % 256] := by
          have e1 : lenBytesBEAux (c1.length + 1) c1.length =
              lenBytesBEAux c1.length (c1.length / 256) ++ [c1.length % 256] := by
            simp only [lenBytesBEAux]
            rw [if_neg h2]
          have e2' : lenBytesBEAux c1.length (c1.length / 256) = [c1.length / 256] := by
            obtain ⟨m, hm⟩ : ∃ m, c1.length = m + 1 := ⟨c1.length - 1, by omega⟩
            rw [hm] at hq ⊢
            simp only [lenBytesBEAux]
            rw [if_pos hq]
          rw [lenBytesBE, e1, e2']
          rfl
        have hd : derLenBytes c1.length = [0x82, c1.length / 256, c1.length % 256] := by
          unfold derLenBytes
          rw [if_neg h1, hlb]
          rfl
        rw [hd]
        rw [show (tag :: ([0x82, c1.length / 256, c1.length % 256] : List Nat) ++ c1) ++ e2 =
            tag :: 0x82 :: c1.length / 256 :: c1.length % 256 :: (c1 ++ e2) from by simp]
        rw [show (tag :: ([0x82, c1.length / 256, c1.length % 256] : List Nat) ++ c1) =
            tag :: 0x82 :: c1.length / 256 :: c1.length % 256 :: c1 from by simp]
        exact split_der_key_82 tag (c1.length / 256) (c1.length % 256) c1 e2
          (by omega) (by omega)
  · rfl

/-- C1 witness: the general statement applied to the scenario elements
[0x30,0x03,1,2,3] and [0x02,0x01,0x09]. -/
theorem c1_witness :
    split_der_key ((0x30 :: derLenBytes ([1, 2, 3] : List Nat).length ++ [1, 2, 3]) ++
        [0x02, 1, 9]) =
      Except.ok (0x30 :: derLenBytes ([1, 2, 3] : List Nat).length ++ [1, 2, 3], [0x02, 1, 9]) :=
  c1_split_concat_two_tlvs.1 0x30 [1, 2, 3] [0x02, 1, 9] (by decide) (by decide) (by decide)
    ⟨0x02, [9], by decide, by decide, by decide⟩

/-! Helper lemmas for the canonical-record builders. -/

theorem ccadb_single_row (entry : CCADBEntry) (bs : List Nat)
    (h : hexDecode (strBytes entry.certificate_serial_number) = some bs) :
    ccadbToIntermediaries ⟨[entry]⟩ =
      some {⟨entry.certificate_issuer_common_name,
             entry.certificate_issuer_organization, base64encode bs⟩} := by
  simp [ccadbToIntermediaries, ccadbRows, h]

theorem ccadbRows_isSome (rows : List CCADBEntry) :
    (ccadbRows rows).isSome ↔
      ∀ e ∈ rows, (hexDecode (strBytes e.certificate_serial_number)).isSome := by
  induction rows with
  | nil => simp [ccadbRows]
  | cons e rest ih =>
    cases hx : hexDecode (strBytes e.certificate_serial_number) with
    | none =>
      simp only [ccadbRows, hx]
      simp [List.forall_mem_cons, hx]
    | some bs =>
      cases hr : ccadbRows rest with
      | none =>
        simp only [ccadbRows, hx, hr]
        simp only [hr] at ih
        simp [List.forall_mem_cons, hx, ← ih]
      | some tail =>
        simp only [ccadbRows, hx, hr]
        simp only [hr] at ih
        simp [List.forall_mem_cons, hx, ← ih]

/-- C6: the three-way reconciler populates exactly the six pairwise
directional difference fields, each being the set subtraction of the
corresponding ordered pair, and leaves the two CCADB fields absent; each
two-way mode populates only its own two difference fields and leaves all
six others absent. -/
theorem c6_reconciler_fields :
    ∀ a b c : Finset Intermediary,
      ((return_from_with_revocations a b c).in_kinto_not_in_cert_storage = some (b \ a)
      ∧ (return_from_with_revocations a b c).in_cert_storage_not_in_kinto = some (a \ b)
      ∧ (return_from_with_revocations a b c).in_cert_storage_not_in_revocations = some (a \ c)
      ∧ (return_from_with_revocations a b c).in_revocations_not_in_cert_storage = some (c \ a)
      ∧ (return_from_with_revocations a b c).in_revocations_not_in_kinto = some (c \ b)
      ∧ (return_from_with_revocations a b c).in_kinto_not_in_revocations = some (b \ c)
      ∧ (return_from_with_revocations a b c).in_ccadb_not_in_cert_storage = none
      ∧ (return_from_with_revocations a b c).in_cert_storage_not_in_ccadb = none)
    ∧ ((return_from_without_revocations a b).in_kinto_not_in_cert_storage = some (b \ a)
      ∧ (return_from_without_revocations a b).in_cert_storage_not_in_kinto = some (a \ b)
      ∧ (return_from_without_revocations a b).in_cert_storage_not_in_revocations = none
      ∧ (return_from_without_revocations a b).in_revocations_not_in_cert_storage = none
      ∧ (return_from_without_revocations a b).in_revocations_not_in_kinto = none
      ∧ (return_from_without_revocations a b).in_kinto_not_in_revocations = none
      ∧ (return_from_without_revocations a b).in_ccadb_not_in_cert_storage = none
      ∧ (return_from_without_revocations a b).in_cert_storage_not_in_ccadb = none)
    ∧ ((return_from_ccadb_diff a b).in_ccadb_not_in_cert_storage = some (b \ a)
      ∧ (return_from_ccadb_diff a b).in_cert_storage_not_in_ccadb = some (a \ b)
      ∧ (return_from_ccadb_diff a b).in_kinto_not_in_cert_storage = none
      ∧ (return_from_ccadb_diff a b).in_cert_storage_not_in_kinto = none
      ∧ (return_from_ccadb_diff a b).in_cert_storage_not_in_revocations = none
      ∧ (return_from_ccadb_diff a b).in_revocations_not_in_cert_storage = none
      ∧ (return_from_ccadb_diff a b).in_revocations_not_in_kinto = none
      ∧ (return_from_ccadb_diff a b).in_kinto_not_in_revocations = none) :=
  fun _ _ _ =>
    ⟨⟨rfl, rfl, rfl, rfl, rfl, rfl, rfl, rfl⟩,
     ⟨rfl, rfl, rfl, rfl, rfl, rfl, rfl, rfl⟩,
     ⟨rfl, rfl, rfl, rfl, rfl, rfl, rfl, rfl⟩⟩

/-- C7: for any tabular feed C row whose serial is valid hex, the canonical
record's serial is the base64 encoding of the hex-decoded bytes; in
particular the serial hex text 0A1B yields the base64 encoding of the bytes
[0x0A, 0x1B]. -/
theorem c7_ccadb_serial :
    (∀ (entry : CCADBEntry) (bs : List Nat),
      hexDecode (strBytes entry.certificate_serial_number) = some bs →
      ccadbToIntermediaries ⟨[entry]⟩ =
        some {⟨entry.certificate_issuer_common_name,
               entry.certificate_issuer_organization, base64encode bs⟩})
  ∧ (∀ cn org : String,
      ccadbToIntermediaries ⟨[⟨cn, org, ("0A1B")⟩]⟩ =
        some {⟨cn, org, base64encode [0x0A, 0x1B]⟩}) :=
  ⟨fun entry bs h => ccadb_single_row entry bs h,
   fun cn org => ccadb_single_row ⟨cn, org, ("0A1B")⟩ [0x0A, 0x1B] rfl⟩

/-- C7 witness: a concrete row with serial 0A1B. -/
theorem c7_witness :
    ccadbToIntermediaries ⟨[⟨("SomeCA"), ("SomeOrg"), ("0A1B")⟩]⟩ =
      some {⟨("SomeCA"), ("SomeOrg"), base64encode [0x0A, 0x1B]⟩} :=
  c7_ccadb_serial.1 ⟨("SomeCA"), ("SomeOrg"), ("0A1B")⟩ [0x0A, 0x1B] rfl

/-- C10: the tabular feed C conversion is partial — it produces a set
exactly when every row's serial is a valid hex string, and aborts (the
source panics on unwrap, modelled as none) as soon as any row's serial
fails to hex-decode. -/
theorem c10_ccadb_partiality :
    ∀ report : CCADBReport,
      (ccadbToIntermediaries report).isSome ↔
        ∀ e ∈ report.report, (hexDecode (strBytes e.certificate_serial_number)).isSome := by
  intro report
  rw [show (ccadbToIntermediaries report).isSome = (ccadbRows report.report).isSome from by
    unfold ccadbToIntermediaries
    cases ccadbRows report.report <;> rfl]
  exact ccadbRows_isSome report.report

/-- C8: two remote feed A rows that differ only in the Kinto-specific id but
agree on issuer name and serial produce the same canonical record, and the
builder's set collapses them to a single member. -/
theorem c8_duplicate_collapse :
    ∀ (p : String → Except String Issuer) (e1 e2 : KintoEntry) (iss : Issuer),
      e1.issuer_name = e2.issuer_name →
      e1.serial_number = e2.serial_number →
      p e1.issuer_name = Except.ok iss →
      kintoToIntermediaries p ⟨[e1, e2]⟩ =
        some {⟨iss.common_name, iss.organization, e1.serial_number⟩}
      ∧ ({⟨iss.common_name, iss.organization, e1.serial_number⟩} :
          Finset Intermediary).card = 1 := by
  intro p e1 e2 iss hname hserial hp
  have hp2 : p e2.issuer_name = Except.ok iss := by
    rw [← hname]
    exact hp
  refine ⟨?_, Finset.card_singleton _⟩
  simp only [kintoToIntermediaries, List.map_cons, List.map_nil, parse_issuers, hp, hp2]
  rw [show kintoBuild [iss, iss] [e1, e2] =
      insert ⟨iss.common_name, iss.organization, e2.serial_number⟩
        (insert ⟨iss.common_name, iss.organization, e1.serial_number⟩ ∅) from rfl]
  rw [← hserial, Finset.insert_idem]
  rfl

/-- C8 witness: two concrete rows differing only in id collapse to one
canonical record. -/
theorem c8_witness :
    kintoToIntermediaries (fun _ => Except.ok ⟨("CN1"), ("O1")⟩)
      ⟨[⟨("id1"), ("name1"), ("serial1")⟩, ⟨("id2"), ("name1"), ("serial1")⟩]⟩ =
      some {⟨("CN1"), ("O1"), ("serial1")⟩}
  ∧ ({⟨("CN1"), ("O1"), ("serial1")⟩} : Finset Intermediary).card = 1 :=
  c8_duplicate_collapse (fun _ => Except.ok ⟨("CN1"), ("O1")⟩)
    ⟨("id1"), ("name1"), ("serial1")⟩ ⟨("id2"), ("name1"), ("serial1")⟩
    ⟨("CN1"), ("O1")⟩ rfl rfl rfl

end KintoIntegrity
